import Mathlib

/-!
# SpeakBridge translator: the `App` component's state and handlers

A shallow embedding of `src/App.jsx`.  The component owns six pieces of React
state; its handlers (`addLog`, `swapLanguages`, `copyTranslation`, the two
language selectors) read the values of the current render and enqueue state
updates.  The two hooks the component calls (`useSpeechRecognition`,
`useTranslationAndSpeech`) live in other files; they can touch the component's
state only through the setters and the `addLog` callback they are handed.
-/

set_option autoImplicit false

namespace App

/-! ## Data model -/

/-- One activity-log record, the object literal built in `addLog`. -/
structure LogEntry where
  type : String
  text : String
  source : String
  timestamp : String
deriving DecidableEq, Repr

/-- The six `useState` cells of the component. -/
structure AppState where
  isListening : Bool
  statusText : String
  floatingText : String
  logHistory : List LogEntry
  sourceLang : String
  targetLang : String
deriving DecidableEq, Repr

def DEFAULT_SOURCE_LANG : String := "en-US"

def DEFAULT_TARGET_LANG : String := "hi"

/-- The values handed to the six `useState` calls on the first render. -/
def initialState : AppState :=
  { isListening := false
    statusText := "Click Start to begin voice recognition"
    floatingText := "Your translated text will appear here..."
    logHistory := []
    sourceLang := DEFAULT_SOURCE_LANG
    targetLang := DEFAULT_TARGET_LANG }

/-! ## `Array.prototype.slice` -/

/-- The index clamping of `Array.prototype.slice`: a negative index counts from
the end of the array, and the result is clamped to `[0, len]`. -/
def relativeIndex (len : Nat) (i : Int) : Nat :=
  if i < 0 then ((len : Int) + i).toNat else min i.toNat len

/-- The call `xs.slice(start, stop)` on an array. -/
def slice {α : Type} (xs : List α) (start stop : Int) : List α :=
  let k := relativeIndex xs.length start
  let final := relativeIndex xs.length stop
  (xs.drop k).take (final - k)

/-! ## State updates

A handler does not write the state: it enqueues updates, which React applies in
order to the current state.  A setter is called either with a value or, for
`setLogHistory` in `addLog`, with an updater function of the previous value. -/

/-- One enqueued state update. -/
inductive Update where
  | setIsListening (v : Bool)
  | setStatusText (v : String)
  | setFloatingText (v : String)
  | setLogHistory (f : List LogEntry → List LogEntry)
  | setSourceLang (v : String)
  | setTargetLang (v : String)

/-- Apply one enqueued update to the state. -/
def Update.apply (u : Update) (s : AppState) : AppState :=
  match u with
  | .setIsListening v => { s with isListening := v }
  | .setStatusText v => { s with statusText := v }
  | .setFloatingText v => { s with floatingText := v }
  | .setLogHistory f => { s with logHistory := f s.logHistory }
  | .setSourceLang v => { s with sourceLang := v }
  | .setTargetLang v => { s with targetLang := v }

/-- Apply a queue of updates, oldest first. -/
def commit (us : List Update) (s : AppState) : AppState :=
  us.foldl (fun acc u => u.apply acc) s

/-! ## Handlers

Each handler takes the state of the render whose closure it is and returns the
updates it enqueues.  `now` is the value of `new Date().toLocaleTimeString()`
at the call. -/

/-- The updater `prev => [entry, ...prev].slice(0, 200)`. -/
def logUpdater (entry : LogEntry) (prev : List LogEntry) : List LogEntry :=
  slice (entry :: prev) 0 200

/-- The handler `addLog(type, text, source = '')`: `source` is `none` when the
caller omits the argument, and the default `''` is taken then. -/
def addLog (type text : String) (source : Option String) (now : String) : List Update :=
  let entry : LogEntry :=
    { type := type, text := text, source := source.getD "", timestamp := now }
  [Update.setLogHistory (logUpdater entry)]

/-- The handler `swapLanguages`. -/
def swapLanguages (now : String) (render : AppState) : List Update :=
  let temp := render.sourceLang
  [Update.setSourceLang render.targetLang, Update.setTargetLang temp]
    ++ addLog "system" "Languages swapped" none now

/-- The handler `copyTranslation`: the text written to the clipboard and the
updates enqueued. -/
def copyTranslation (now : String) (render : AppState) : String × List Update :=
  (render.floatingText, addLog "system" "Translation copied to clipboard" none now)

/-- The `onChange` handler of the source-language selector. -/
def onSourceChange (value : String) : List Update :=
  [Update.setSourceLang value]

/-- The `onChange` handler of the target-language selector. -/
def onTargetChange (value : String) : List Update :=
  [Update.setTargetLang value]

/-- The `value`s of the `<option>`s of the source-language selector. -/
def sourceOptions : List String := ["en-US", "en-GB", "es-ES", "fr-FR"]

/-- The `value`s of the `<option>`s of the target-language selector. -/
def targetOptions : List String := ["hi", "es", "fr", "de"]

/-! ## Events

What can happen to the component between two renders: a control is used, or a
hook calls one of the callbacks it was handed (`setIsListening`,
`setStatusText`, `setFloatingText`, `addLog`). -/

/-- One event on the component. -/
inductive Action where
  | addLog (type text : String) (source : Option String)
  | swapLanguages
  | copyTranslation
  | selectSource (value : String)
  | selectTarget (value : String)
  | setIsListening (v : Bool)
  | setStatusText (v : String)
  | setFloatingText (v : String)
deriving DecidableEq, Repr

/-- The updates an event enqueues, from the closure of the render `render`. -/
def handle (a : Action) (now : String) (render : AppState) : List Update :=
  match a with
  | .addLog type text source => addLog type text source now
  | .swapLanguages => swapLanguages now render
  | .copyTranslation => (copyTranslation now render).2
  | .selectSource value => onSourceChange value
  | .selectTarget value => onTargetChange value
  | .setIsListening v => [Update.setIsListening v]
  | .setStatusText v => [Update.setStatusText v]
  | .setFloatingText v => [Update.setFloatingText v]

/-- One event, then the re-render: the enqueued updates are applied. -/
def step (a : Action) (now : String) (s : AppState) : AppState :=
  commit (handle a now s) s

/-- A sequence of events, each with the clock reading at its time. -/
def run (evs : List (Action × String)) (s : AppState) : AppState :=
  evs.foldl (fun acc ev => step ev.1 ev.2 acc) s

/-- The calls `addLog(e.type, e.text, e.source)` for the entries `es`, first to
last, the call for `e` made at clock reading `e.timestamp`. -/
def addLogCalls (es : List LogEntry) : List (Action × String) :=
  es.map fun e => (Action.addLog e.type e.text (some e.source), e.timestamp)

/-- The `system` entry that `swapLanguages` logs at clock reading `now`. -/
def swapEntry (now : String) : LogEntry :=
  { type := "system", text := "Languages swapped", source := "", timestamp := now }

/-! ## Language-code domains -/

/-- A 2-letter code of lower-case letters, the shape of the translator's target
codes (`hi`, `es`, `fr`, `de`). -/
def isTwoLetterCode (code : String) : Bool :=
  match code.toList with
  | [a, b] => a.isLower && b.isLower
  | _ => false

/-- A locale code `ll-CC`, the shape of the recognizer's language codes
(`en-US`). -/
def isLocaleCode (code : String) : Bool :=
  match code.toList with
  | [a, b, c, x, y] => a.isLower && b.isLower && c == '-' && x.isUpper && y.isUpper
  | _ => false

/-- The two language cells hold codes of their own domain: `targetLang` one of
the translator's 2-letter codes, `sourceLang` one of the recognizer's locale
codes. -/
def domainsApart (s : AppState) : Prop :=
  (s.targetLang ∈ targetOptions ∧ isTwoLetterCode s.targetLang = true) ∧
  (s.sourceLang ∈ sourceOptions ∧ isLocaleCode s.sourceLang = true)

instance (s : AppState) : Decidable (domainsApart s) :=
  inferInstanceAs (Decidable
    ((s.targetLang ∈ targetOptions ∧ isTwoLetterCode s.targetLang = true) ∧
     (s.sourceLang ∈ sourceOptions ∧ isLocaleCode s.sourceLang = true)))

/-- The events of the source selector, the target selector and the swap button;
a selector yields the `value` of one of its options. -/
def isLanguageControl (a : Action) : Bool :=
  match a with
  | .selectSource value => decide (value ∈ sourceOptions)
  | .selectTarget value => decide (value ∈ targetOptions)
  | .swapLanguages => true
  | _ => false

/-- The events of the two selectors alone. -/
def isSelector (a : Action) : Bool :=
  match a with
  | .selectSource value => decide (value ∈ sourceOptions)
  | .selectTarget value => decide (value ∈ targetOptions)
  | _ => false

/-! ## The session controller

The translation hook is called as
`useTranslationAndSpeech(targetLang, addLog, setFloatingText, isListening)` and
the recognition hook as `useSpeechRecognition(sourceLang, isListening,
setIsListening, setStatusText, setFloatingText, addLog, translateAndSpeak)`;
their bodies are in `hooks/`, outside the sources at hand. -/

/-- Modelled from the spec: the state of the Session Controller, whose code
(`hooks/useSpeechAndTranslation`, `hooks/useSpeechRecognition`) is missing.  It
is the component state together with the generation token, the "monotonically
increasing counter used to detect and discard stale asynchronous results". -/
structure Controller where
  app : AppState
  generation : Nat
deriving DecidableEq, Repr

/-- Modelled from the spec: the test of the missing translator hook for "empty
or whitespace-only input", which "short-circuits without a network call". -/
def isBlank (text : String) : Bool :=
  text.toList.all Char.isWhitespace

/-- Modelled from the spec: the events of the missing Session Controller.
`toggleOn granted errorText` is a start request with the outcome of the
microphone permission; `finalUtterance rawText` a final recognition result;
`resolved token rawText translatedText` the success of the translation call
tagged `token`; `rejected token errorText` its failure; `ui a` any event of the
component itself. -/
inductive Event where
  | toggleOn (granted : Bool) (errorText : String)
  | toggleOff
  | finalUtterance (rawText : String)
  | resolved (token : Nat) (rawText translatedText : String)
  | rejected (token : Nat) (errorText : String)
  | ui (a : Action)
deriving DecidableEq, Repr

/-- Modelled from the spec: one transition of the missing Session Controller
(section 4.4, with the token discipline of sections 4.2, 5 and 9).
* `toggleOn`, Idle to Listening: "on denial, stay Idle, set status text to an
  error, log an error entry".
* `toggleOff`, Listening to Idle: "invalidate the current translation token (so
  any pending Promise resolution becomes a no-op)".
* a final utterance while Listening starts a translation call under a fresh
  token, unless the text is blank.
* a resolution "tagged with a stale generation is dropped unconditionally";
  a current one "updates floating display text, appends a
  LogEntry(type=translation, text=translatedText, source=rawText)".
* a current failure "appends a LogEntry(type=error)" and leaves the displayed
  translation unchanged.
* swapping languages invalidates the token like `toggleOff`; the other events
  of the component leave it alone. -/
def Controller.step (ev : Event) (now : String) (c : Controller) : Controller :=
  match ev with
  | .toggleOn granted errorText =>
    if c.app.isListening then c
    else if granted then { c with app := commit [Update.setIsListening true] c.app }
    else { c with app := commit ([Update.setStatusText errorText]
                                  ++ addLog "error" errorText none now) c.app }
  | .toggleOff =>
    if c.app.isListening then
      { app := commit [Update.setIsListening false] c.app, generation := c.generation + 1 }
    else c
  | .finalUtterance rawText =>
    if c.app.isListening && !isBlank rawText then { c with generation := c.generation + 1 }
    else c
  | .resolved token rawText translatedText =>
    if token = c.generation then
      { c with app := commit ([Update.setFloatingText translatedText]
                               ++ addLog "translation" translatedText (some rawText) now) c.app }
    else c
  | .rejected token errorText =>
    if token = c.generation then
      { c with app := commit (addLog "error" errorText none now) c.app }
    else c
  | .ui a =>
    match a with
    | .swapLanguages => { app := App.step a now c.app, generation := c.generation + 1 }
    | _ => { c with app := App.step a now c.app }

/-- Modelled from the spec: a sequence of events on the missing Session
Controller, each with the clock reading at its time. -/
def Controller.run (evs : List (Event × String)) (c : Controller) : Controller :=
  evs.foldl (fun acc ev => Controller.step ev.1 ev.2 acc) c

/-! ## Lemmas on `slice` and the log updater -/

theorem slice_zero_eq_take {α : Type} (xs : List α) (n : Nat) :
    slice xs 0 (n : Int) = xs.take n := by
  simp only [slice, relativeIndex]
  have h : ¬ ((n : Int) < 0) := by omega
  simp [h, List.take_eq_take]

theorem logUpdater_eq_take (e : LogEntry) (prev : List LogEntry) :
    logUpdater e prev = (e :: prev).take 200 := by
  unfold logUpdater
  exact slice_zero_eq_take (e :: prev) 200

theorem logUpdater_eq_cons (e : LogEntry) (prev : List LogEntry) :
    logUpdater e prev = e :: prev.take 199 := by
  rw [logUpdater_eq_take]; rfl

theorem logUpdater_length (e : LogEntry) (prev : List LogEntry) :
    (logUpdater e prev).length = min (prev.length + 1) 200 := by
  rw [logUpdater_eq_take, List.length_take, List.length_cons, Nat.min_comm]

/-! ## Lemmas on the handlers -/

theorem step_addLog_logHistory (type text : String) (source : Option String) (now : String)
    (s : AppState) :
    (step (.addLog type text source) now s).logHistory =
      ⟨type, text, source.getD "", now⟩ :: s.logHistory.take 199 := by
  show logUpdater _ _ = _
  exact logUpdater_eq_cons _ _

theorem step_logHistory_length_le (a : Action) (now : String) (s : AppState)
    (h : s.logHistory.length ≤ 200) : (step a now s).logHistory.length ≤ 200 := by
  have hu : ∀ (e : LogEntry), (logUpdater e s.logHistory).length ≤ 200 := by
    intro e; rw [logUpdater_length]; exact Nat.min_le_right _ _
  cases a with
  | addLog type text source => exact hu _
  | swapLanguages => exact hu _
  | copyTranslation => exact hu _
  | selectSource value => exact h
  | selectTarget value => exact h
  | setIsListening v => exact h
  | setStatusText v => exact h
  | setFloatingText v => exact h

theorem run_logHistory_length_le (evs : List (Action × String)) (s : AppState)
    (h : s.logHistory.length ≤ 200) : (run evs s).logHistory.length ≤ 200 := by
  induction evs generalizing s with
  | nil => exact h
  | cons ev rest ih => exact ih _ (step_logHistory_length_le ev.1 ev.2 s h)

theorem take_append_take {α : Type} (n : Nat) (xs ys : List α) :
    (xs ++ ys.take n).take n = (xs ++ ys).take n := by
  rw [List.take_append_eq_append_take, List.take_append_eq_append_take, List.take_take]
  congr 2
  omega

theorem take_min_length {α : Type} (n : Nat) (xs : List α) :
    xs.take n = xs.take (min xs.length n) := by
  rw [List.take_eq_take]
  omega

theorem run_addLogCalls_logHistory (es : List LogEntry) (s : AppState)
    (h : s.logHistory.length ≤ 200) :
    (run (addLogCalls es) s).logHistory = (es.reverse ++ s.logHistory).take 200 := by
  induction es generalizing s with
  | nil =>
    show s.logHistory = _
    rw [List.reverse_nil, List.nil_append, List.take_of_length_le h]
  | cons e rest ih =>
    show (run (addLogCalls rest)
      (step (.addLog e.type e.text (some e.source)) e.timestamp s)).logHistory = _
    rw [ih _ (step_logHistory_length_le _ _ s h)]
    have hs : (step (.addLog e.type e.text (some e.source)) e.timestamp s).logHistory
        = (e :: s.logHistory).take 200 := by
      show logUpdater _ _ = _
      exact logUpdater_eq_take _ _
    rw [hs, take_append_take, List.reverse_cons, List.append_assoc]
    rfl

/-! ## The activity log -/

/-- C1. Log bound: from the initial state, after any sequence of events (calls
of `addLog` with any type, text and source, `swapLanguages`, `copyTranslation`,
the selectors, the setters handed to the hooks), `logHistory` holds at most 200
entries; and the updater `[e, ...prev].slice(0, 200)` returns a list of length
`min (|prev| + 1) 200` for every `prev` and `e`. -/
theorem logHistory_length_le_200 (evs : List (Action × String)) :
    (run evs initialState).logHistory.length ≤ 200 ∧
    ∀ (prev : List LogEntry) (e : LogEntry),
      (slice (e :: prev) 0 200).length = min (prev.length + 1) 200 ∧
      (commit (addLog e.type e.text (some e.source) e.timestamp)
        { initialState with logHistory := prev }).logHistory = slice (e :: prev) 0 200 :=
  ⟨run_logHistory_length_le evs initialState (Nat.zero_le _),
   fun prev e => ⟨logUpdater_length e prev, rfl⟩⟩

/-- C2. Eviction order: after `addLog` is called for the entries `e1 .. en` in
turn, from the empty log, `logHistory` is exactly the most recent `min n 200`
entries, newest first: `e_n, e_(n-1), ..., e_(n - min n 200 + 1)`.  Only the
oldest `n - min n 200` entries are dropped, and the retained ones are
unchanged and in insertion order (read from the back). -/
theorem logHistory_most_recent (es : List LogEntry) :
    (run (addLogCalls es) initialState).logHistory = es.reverse.take (min es.length 200) ∧
    (run (addLogCalls es) initialState).logHistory
      = (es.drop (es.length - min es.length 200)).reverse := by
  have h : (run (addLogCalls es) initialState).logHistory = es.reverse.take 200 := by
    rw [run_addLogCalls_logHistory es initialState (Nat.zero_le _)]
    show (es.reverse ++ []).take 200 = _
    rw [List.append_nil]
  have h2 : es.reverse.take 200 = es.reverse.take (min es.length 200) := by
    rw [take_min_length 200 es.reverse, List.length_reverse]
  refine ⟨h.trans h2, ?_⟩
  rw [h, h2, List.take_reverse]

/-- C3. Newest first: after `addLog(type, text, source)` on a log `prev`, the
first element of the log is the entry with that type, text and source (the
source `""` when the argument is omitted) and the clock reading of the call,
and the rest is the first `min |prev| 199` elements of `prev`, in order. -/
theorem addLog_newest_first (s : AppState) (type text : String) (source : Option String)
    (now : String) :
    (step (.addLog type text source) now s).logHistory.head?
      = some { type := type, text := text, source := source.getD "", timestamp := now } ∧
    (step (.addLog type text source) now s).logHistory.tail
      = s.logHistory.take (min s.logHistory.length 199) ∧
    ((step (.addLog type text none) now s).logHistory.head?).map LogEntry.source = some "" := by
  have h2 : s.logHistory.take 199 = s.logHistory.take (min s.logHistory.length 199) :=
    take_min_length 199 s.logHistory
  refine ⟨?_, ?_, ?_⟩
  · rw [step_addLog_logHistory]; rfl
  · rw [step_addLog_logHistory, List.tail_cons, h2]
  · rw [step_addLog_logHistory]; rfl

/-! ## Swapping the languages -/

/-- C4. `swapLanguages` exchanges the language pair: from a state with
`sourceLang = src` and `targetLang = tgt`, the state after it has
`sourceLang = tgt` and `targetLang = src`. -/
theorem swapLanguages_exchanges (s : AppState) (now : String) :
    (step .swapLanguages now s).sourceLang = s.targetLang ∧
    (step .swapLanguages now s).targetLang = s.sourceLang :=
  ⟨rfl, rfl⟩

/-- C5. `swapLanguages` appends exactly one log entry: from a log `prev`, the
log after it is `[e, ...prev].slice(0, 200)` with `e` of type `"system"`, text
`"Languages swapped"` and empty source; that is `e` followed by the first 199
entries of `prev`, so no other entry is added and every other entry of the new
log was in `prev`. -/
theorem swapLanguages_logs_once (s : AppState) (now : String) :
    (step .swapLanguages now s).logHistory
      = slice ({ type := "system", text := "Languages swapped", source := "",
                 timestamp := now } :: s.logHistory) 0 200 ∧
    (step .swapLanguages now s).logHistory
      = { type := "system", text := "Languages swapped", source := "",
          timestamp := now } :: s.logHistory.take 199 ∧
    (step .swapLanguages now s).logHistory.length = min (s.logHistory.length + 1) 200 ∧
    ∀ x ∈ (step .swapLanguages now s).logHistory.tail, x ∈ s.logHistory := by
  have h : (step .swapLanguages now s).logHistory
      = swapEntry now :: s.logHistory.take 199 := logUpdater_eq_cons _ _
  refine ⟨rfl, h, logUpdater_length _ _, ?_⟩
  intro x hx
  rw [h, List.tail_cons] at hx
  exact List.mem_of_mem_take hx

/-- C9. Frame of `swapLanguages`: in every state, listening or not, it leaves
`isListening`, `statusText` and `floatingText` as they were; only
`sourceLang`, `targetLang` and `logHistory` are written. -/
theorem swapLanguages_frame (s : AppState) (now : String) :
    (step .swapLanguages now s).isListening = s.isListening ∧
    (step .swapLanguages now s).statusText = s.statusText ∧
    (step .swapLanguages now s).floatingText = s.floatingText ∧
    step .swapLanguages now s =
      { s with sourceLang := (step .swapLanguages now s).sourceLang
               targetLang := (step .swapLanguages now s).targetLang
               logHistory := (step .swapLanguages now s).logHistory } :=
  ⟨rfl, rfl, rfl, rfl⟩

/-- C10. `swapLanguages` twice, each on the state the previous one produced,
restores `sourceLang` and `targetLang`, and the log gains two
`"Languages swapped"` system entries at its head, under the cap of 200: it is
`[e2, e1, ...prev].slice(0, 200)`, the two entries followed by the first 198
entries of `prev`. -/
theorem swapLanguages_twice (s : AppState) (now1 now2 : String) :
    (step .swapLanguages now2 (step .swapLanguages now1 s)).sourceLang = s.sourceLang ∧
    (step .swapLanguages now2 (step .swapLanguages now1 s)).targetLang = s.targetLang ∧
    (step .swapLanguages now2 (step .swapLanguages now1 s)).logHistory
      = slice (swapEntry now2 :: swapEntry now1 :: s.logHistory) 0 200 ∧
    (step .swapLanguages now2 (step .swapLanguages now1 s)).logHistory
      = swapEntry now2 :: swapEntry now1 :: s.logHistory.take 198 ∧
    (swapEntry now1).type = "system" ∧ (swapEntry now1).text = "Languages swapped" ∧
    (swapEntry now2).type = "system" ∧ (swapEntry now2).text = "Languages swapped" := by
  have h : (step .swapLanguages now2 (step .swapLanguages now1 s)).logHistory
      = swapEntry now2 :: swapEntry now1 :: s.logHistory.take 198 := by
    show logUpdater (swapEntry now2) (logUpdater (swapEntry now1) s.logHistory) = _
    rw [logUpdater_eq_cons, logUpdater_eq_cons, List.take_succ_cons, List.take_take]
    rfl
  refine ⟨rfl, rfl, ?_, h, rfl, rfl, rfl, rfl⟩
  rw [h]
  exact (slice_zero_eq_take (swapEntry now2 :: swapEntry now1 :: s.logHistory) 200).symm

/-! ## The language-code domains -/

theorem sourceOptions_isLocaleCode (value : String) (h : value ∈ sourceOptions) :
    isLocaleCode value = true := by
  simp only [sourceOptions, List.mem_cons, List.mem_singleton, List.not_mem_nil, or_false] at h
  rcases h with rfl | rfl | rfl | rfl <;> decide

theorem targetOptions_isTwoLetterCode (value : String) (h : value ∈ targetOptions) :
    isTwoLetterCode value = true := by
  simp only [targetOptions, List.mem_cons, List.mem_singleton, List.not_mem_nil, or_false] at h
  rcases h with rfl | rfl | rfl | rfl <;> decide

/-- The two selectors keep each language cell in its own domain: through them
alone `targetLang` stays a 2-letter code and `sourceLang` a locale code. -/
theorem selectors_keep_domainsApart (evs : List (Action × String)) (s : AppState)
    (hs : domainsApart s) (h : ∀ ev ∈ evs, isSelector ev.1 = true) :
    domainsApart (run evs s) := by
  induction evs generalizing s with
  | nil => exact hs
  | cons ev rest ih =>
    have hev : isSelector ev.1 = true := h ev (List.mem_cons_self _ _)
    have hrest : ∀ e ∈ rest, isSelector e.1 = true :=
      fun e he => h e (List.mem_cons_of_mem _ he)
    refine ih (step ev.1 ev.2 s) ?_ hrest
    obtain ⟨a, now⟩ := ev
    cases a with
    | selectSource value =>
      have hv : value ∈ sourceOptions := of_decide_eq_true hev
      exact ⟨hs.1, hv, sourceOptions_isLocaleCode value hv⟩
    | selectTarget value =>
      have hv : value ∈ targetOptions := of_decide_eq_true hev
      exact ⟨⟨hv, targetOptions_isTwoLetterCode value hv⟩, hs.2⟩
    | addLog type text source => exact absurd hev Bool.false_ne_true
    | swapLanguages => exact absurd hev Bool.false_ne_true
    | copyTranslation => exact absurd hev Bool.false_ne_true
    | setIsListening v => exact absurd hev Bool.false_ne_true
    | setStatusText v => exact absurd hev Bool.false_ne_true
    | setFloatingText v => exact absurd hev Bool.false_ne_true

/-- C6. The code at the failing input: the initial state keeps the two domains
apart, and one `swapLanguages` from it, a language control, leaves
`sourceLang = "hi"`, which is no locale code and no option of the source
selector, and `targetLang = "en-US"`, which is no 2-letter code and no option
of the target selector. -/
theorem swapLanguages_mixes_domains :
    isLanguageControl Action.swapLanguages = true ∧
    domainsApart initialState ∧
    (run [(Action.swapLanguages, "10:15:00 AM")] initialState).sourceLang = "hi" ∧
    (run [(Action.swapLanguages, "10:15:00 AM")] initialState).targetLang = "en-US" ∧
    isLocaleCode "hi" = false ∧ "hi" ∉ sourceOptions ∧
    isTwoLetterCode "en-US" = false ∧ "en-US" ∉ targetOptions ∧
    ¬ domainsApart (run [(Action.swapLanguages, "10:15:00 AM")] initialState) := by
  decide

/-! ## Stale translation results -/

theorem Controller.step_generation_le (ev : Event) (now : String) (c : Controller) :
    c.generation ≤ (Controller.step ev now c).generation := by
  cases ev with
  | toggleOn granted errorText =>
    simp only [Controller.step]
    split
    · exact Nat.le_refl _
    · split <;> exact Nat.le_refl _
  | toggleOff =>
    simp only [Controller.step]
    split
    · exact Nat.le_succ _
    · exact Nat.le_refl _
  | finalUtterance rawText =>
    simp only [Controller.step]
    split
    · exact Nat.le_succ _
    · exact Nat.le_refl _
  | resolved token rawText translatedText =>
    simp only [Controller.step]
    split <;> exact Nat.le_refl _
  | rejected token errorText =>
    simp only [Controller.step]
    split <;> exact Nat.le_refl _
  | ui a =>
    cases a <;> first | exact Nat.le_refl _ | exact Nat.le_succ _

theorem Controller.run_generation_le (evs : List (Event × String)) (c : Controller) :
    c.generation ≤ (Controller.run evs c).generation := by
  induction evs generalizing c with
  | nil => exact Nat.le_refl _
  | cons ev rest ih =>
    exact Nat.le_trans (Controller.step_generation_le ev.1 ev.2 c) (ih _)

theorem Controller.step_resolved_stale (token : Nat) (rawText translatedText now : String)
    (c : Controller) (h : token < c.generation) :
    Controller.step (.resolved token rawText translatedText) now c = c := by
  simp only [Controller.step]
  rw [if_neg (Nat.ne_of_lt h)]

/-- C8. Stale translation results are discarded: a final utterance while
Listening starts a translation call; the session is then toggled off while the
call is pending; whatever happens next, when that call resolves later the
controller is left as it was: no log entry is appended and `floatingText` is
unchanged. -/
theorem stale_translation_discarded (c : Controller) (rawText translatedText : String)
    (t0 t1 t2 : String) (evs : List (Event × String))
    (hListening : c.app.isListening = true) (hText : isBlank rawText = false) :
    (Controller.step (.finalUtterance rawText) t0 c).generation = c.generation + 1 ∧
    (Controller.step .toggleOff t1
      (Controller.step (.finalUtterance rawText) t0 c)).app.isListening = false ∧
    (Controller.step
        (.resolved (Controller.step (.finalUtterance rawText) t0 c).generation
          rawText translatedText) t2
        (Controller.run evs (Controller.step .toggleOff t1
          (Controller.step (.finalUtterance rawText) t0 c)))).app.logHistory
      = (Controller.run evs (Controller.step .toggleOff t1
          (Controller.step (.finalUtterance rawText) t0 c))).app.logHistory ∧
    (Controller.step
        (.resolved (Controller.step (.finalUtterance rawText) t0 c).generation
          rawText translatedText) t2
        (Controller.run evs (Controller.step .toggleOff t1
          (Controller.step (.finalUtterance rawText) t0 c)))).app.floatingText
      = (Controller.run evs (Controller.step .toggleOff t1
          (Controller.step (.finalUtterance rawText) t0 c))).app.floatingText := by
  have h1 : Controller.step (.finalUtterance rawText) t0 c
      = { c with generation := c.generation + 1 } := by
    simp [Controller.step, hListening, hText]
  have h2 : Controller.step .toggleOff t1 { c with generation := c.generation + 1 }
      = { app := { c.app with isListening := false }, generation := c.generation + 2 } := by
    simp [Controller.step, hListening, commit, Update.apply]
  rw [h1, h2]
  have hle : c.generation + 2 ≤ (Controller.run evs
      { app := { c.app with isListening := false }, generation := c.generation + 2 }).generation :=
    Controller.run_generation_le evs
      { app := { c.app with isListening := false }, generation := c.generation + 2 }
  have hlt : c.generation + 1 < (Controller.run evs
      { app := { c.app with isListening := false }, generation := c.generation + 2 }).generation :=
    Nat.lt_of_succ_le hle
  refine ⟨rfl, rfl, ?_, ?_⟩
  · rw [Controller.step_resolved_stale _ _ _ _ _ hlt]
  · rw [Controller.step_resolved_stale _ _ _ _ _ hlt]

/-- C8 at a concrete run: Listening with the defaults, the utterance "hello" is
final, the session is toggled off, then on again, "bye" is recognised and its
translation arrives; the late translation of "hello" changes neither the log
nor the displayed text. -/
theorem stale_translation_discarded_witness :
    ({ initialState with isListening := true } : AppState).isListening = true ∧
    isBlank "hello" = false ∧
    (Controller.step (.resolved 1 "hello" "namaste") "10:00:09 AM"
        (Controller.run
          [(.toggleOn true "", "10:00:03 AM"), (.finalUtterance "bye", "10:00:05 AM"),
           (.resolved 3 "bye" "alavida", "10:00:06 AM")]
          (Controller.step .toggleOff "10:00:02 AM"
            (Controller.step (.finalUtterance "hello") "10:00:01 AM"
              ⟨{ initialState with isListening := true }, 0⟩)))).app.floatingText
      = "alavida" :=
  ⟨rfl, by decide,
   (stale_translation_discarded ⟨{ initialState with isListening := true }, 0⟩
      "hello" "namaste" "10:00:01 AM" "10:00:02 AM" "10:00:09 AM"
      [(.toggleOn true "", "10:00:03 AM"), (.finalUtterance "bye", "10:00:05 AM"),
       (.resolved 3 "bye" "alavida", "10:00:06 AM")]
      rfl (by decide)).2.2.2.trans (by decide)⟩

/-! ## The initial state -/

/-- C7. Initial state: at the first render `isListening` is false (Idle),
`sourceLang` is `"en-US"`, `targetLang` is `"hi"`, `logHistory` is empty and
`floatingText` is the placeholder `"Your translated text will appear here..."`. -/
theorem initialState_defaults :
    initialState.isListening = false ∧
    initialState.sourceLang = "en-US" ∧
    initialState.targetLang = "hi" ∧
    initialState.logHistory = [] ∧
    initialState.floatingText = "Your translated text will appear here..." :=
  ⟨rfl, rfl, rfl, rfl, rfl⟩

end App
